import Mathlib

/-!
# PolyForest generator — verification of the core geometry pipeline

Shallow embedding of `src/streamlit_files/InTreeG.py`: the solid data model,
the `stack_on_top` aligner, the primitive factories, the three tree
archetype constructors, and the forest/scene assembly.

Conventions of the embedding:
* Coordinates are exact rationals (`ℚ`); the Python code uses IEEE doubles.
  Numeric literals such as `0.5`, `0.4`, `1.8` are modelled as the exact
  rationals `1/2`, `2/5`, `9/5`.  Equalities proved below are exact, hence
  in particular hold within the floating-point tolerances the spec quotes.
* The third-party `trimesh` primitives (`cylinder`, `cone`, `icosphere`,
  `concatenate`, `bounds`, `apply_translation`) are not part of the
  repository; where their geometry decides a claim they are modelled from
  the spec (each such definition carries a doc comment starting
  `Modelled from the spec:`).  The unit-circle / unit-sphere sample
  directions they use (`cos/sin (2πk/n)`, normalised icosahedron vertices)
  are irrational, so they are abstracted as parameters; every property
  proved below holds for all choices of those directions.
* Python's in-place mutation of the `top` mesh by `stack_on_top` is
  embedded as a function returning the translated copy; the state of both
  meshes after the call is captured by `stack_state`.
* Random draws (`np.random.uniform`, `np.random.rand`, `np.random.randint`)
  are passed as explicit parameters, as the spec's design notes (§9)
  prescribe for a reimplementation.
-/

/-- A 3D point / vector with rational coordinates. -/
structure Vec3 where
  x : ℚ
  y : ℚ
  z : ℚ
deriving DecidableEq, Repr

/-- A triangle: three vertex indices (`faces` rows of a trimesh mesh). -/
abbrev Tri := ℕ × ℕ × ℕ

/-- An RGBA color, channels as integers (trimesh stores uint8 RGBA). -/
abbrev Color := ℤ × ℤ × ℤ × ℤ

/-- A `Solid`: vertex list, triangle list, per-triangle color list.
Embeds a `trimesh.Trimesh` with `visual.face_colors`. -/
structure Solid where
  vertices : List Vec3
  faces : List Tri
  colors : List Color
deriving DecidableEq, Repr

/-- Minimum of a rational list (`0` junk value on `[]`). -/
def minL : List ℚ → ℚ
  | [] => 0
  | z :: zs => zs.foldl min z

/-- Maximum of a rational list (`0` junk value on `[]`). -/
def maxL : List ℚ → ℚ
  | [] => 0
  | z :: zs => zs.foldl max z

/-- The Z coordinates of a solid's vertices. -/
def zList (s : Solid) : List ℚ := s.vertices.map Vec3.z

/-- `bounds[0][2]` of trimesh: least Z over the vertices. -/
def minZ (s : Solid) : ℚ := minL (zList s)

/-- `bounds[1][2]` of trimesh: greatest Z over the vertices. -/
def maxZ (s : Solid) : ℚ := maxL (zList s)

/-- `mesh.apply_translation([dx, dy, dz])`: translate every vertex. -/
def apply_translation (s : Solid) (d : Vec3) : Solid :=
  { s with vertices := s.vertices.map fun v => ⟨v.x + d.x, v.y + d.y, v.z + d.z⟩ }

/-- `mesh.visual.face_colors = c`: broadcast one RGBA color to every face. -/
def set_face_colors (s : Solid) (c : Color) : Solid :=
  { s with colors := List.replicate s.faces.length c }

/-- The vertical shift `stack_on_top` computes:
`shift_z = (bottom_z_max - overlap) - top_z_min`. -/
def shift_z (bottom_mesh top_mesh : Solid) (overlap : ℚ) : ℚ :=
  (maxZ bottom_mesh - overlap) - minZ top_mesh

/-- `stack_on_top(bottom_mesh, top_mesh, overlap)`: translate `top_mesh` by
`[0, 0, shift_z]` so that its lowest point lands at
`bottom_mesh`'s highest point minus `overlap`.  Returns the translated top. -/
def stack_on_top (bottom_mesh top_mesh : Solid) (overlap : ℚ) : Solid :=
  apply_translation top_mesh ⟨0, 0, shift_z bottom_mesh top_mesh overlap⟩

/-- The state of the pair `(bottom_mesh, top_mesh)` after the call
`stack_on_top(bottom_mesh, top_mesh, overlap)`: the Python function reads
`bottom_mesh.bounds` and mutates only `top_mesh` (via `apply_translation`). -/
def stack_state (bottom_mesh top_mesh : Solid) (overlap : ℚ) : Solid × Solid :=
  (bottom_mesh, stack_on_top bottom_mesh top_mesh overlap)

/-- The empty mesh: unit of the concatenation fold. -/
def emptySolid : Solid := ⟨[], [], []⟩

/-- Shift all three indices of a triangle by `n` (the index-offsetting rule). -/
def offset_tri (n : ℕ) (t : Tri) : Tri := (t.1 + n, t.2.1 + n, t.2.2 + n)

/-- Merge two solids: vertices appended, the second solid's triangle indices
offset by the first solid's vertex count, colors appended per-triangle. -/
def concat2 (a b : Solid) : Solid :=
  { vertices := a.vertices ++ b.vertices
    faces := a.faces ++ b.faces.map (offset_tri a.vertices.length)
    colors := a.colors ++ b.colors }

/-- Modelled from the spec: `trimesh.util.concatenate` (not repository code) —
the index-offsetting concatenation rule of spec §4.3/§4.4, folded left over
the list of meshes. -/
def concatenate (l : List Solid) : Solid := l.foldl concat2 emptySolid

/-- trimesh's default face color for freshly created primitives; its value is
irrelevant to every claim (all rendered solids are recolored). -/
def defaultColor : Color := (102, 102, 102, 255)

/-- A ring of `sections` vertices of the given radius at constant height `z`;
`circle k` abstracts the `k`-th unit-circle direction `(cos, sin)(2πk/n)`,
which is irrational and therefore kept as a parameter. -/
def ring_verts (radius z : ℚ) (sections : ℕ) (circle : ℕ → ℚ × ℚ) : List Vec3 :=
  (List.range sections).map fun k => ⟨radius * (circle k).1, radius * (circle k).2, z⟩

/-- Side and cap triangles of a closed cylinder with `n`-gon cross-section
(vertex layout: bottom ring `0..n-1`, top ring `n..2n-1`). -/
def cylinder_faces (n : ℕ) : List Tri :=
  ((List.range n).map fun k => (k, (k + 1) % n, n + k)) ++
  ((List.range n).map fun k => ((k + 1) % n, n + (k + 1) % n, n + k)) ++
  ((List.range (n - 2)).map fun k => (0, k + 1, k + 2)) ++
  ((List.range (n - 2)).map fun k => (n, n + k + 1, n + k + 2))

/-- Modelled from the spec: `trimesh.creation.cylinder` (not repository code) —
a cylindrical solid of the given radius and height with an `sections`-gon
cross-section, centered at the origin (Z extent `[-height/2, height/2]`,
see the source comment "cylinder center is at 0,0,0"); one default color per
triangle.  The exact triangulation is not fixed by the spec; no claim below
depends on it beyond the one-color-per-triangle count. -/
def cylinder (radius height : ℚ) (sections : ℕ) (circle : ℕ → ℚ × ℚ) : Solid :=
  { vertices := ring_verts radius (-(height / 2)) sections circle ++
      ring_verts radius (height / 2) sections circle
    faces := cylinder_faces sections
    colors := List.replicate (cylinder_faces sections).length defaultColor }

/-- Base-fan and side-fan triangles of a cone (vertex layout: base ring
`0..n-1`, base center `n`, apex `n+1`). -/
def cone_faces (n : ℕ) : List Tri :=
  ((List.range n).map fun k => (k, (k + 1) % n, n)) ++
  ((List.range n).map fun k => (k, (k + 1) % n, n + 1))

/-- Modelled from the spec: `trimesh.creation.cone` (not repository code) —
spec §4.1: circular base of the given radius with base plane at local
`Z = -height/2`, apex at `height` above the base-plane center
(i.e. at local `Z = height/2`); one default color per triangle. -/
def cone (radius height : ℚ) (sections : ℕ) (circle : ℕ → ℚ × ℚ) : Solid :=
  { vertices := ring_verts radius (-(height / 2)) sections circle ++
      [⟨0, 0, -(height / 2)⟩, ⟨0, 0, height / 2⟩]
    faces := cone_faces sections
    colors := List.replicate (cone_faces sections).length defaultColor }

/-- Modelled from the spec: `trimesh.creation.icosphere` (not repository
code) — spec §4.1: an icosahedral sphere approximation centered at the local
origin.  Its unit-sphere vertex directions and triangulation involve
irrational coordinates (golden ratio, normalised edge midpoints) and are
abstracted as the parameters `dirs` and `tris`; the claims below depend only
on the vertices being a nonempty scaled copy of unit directions and on the
one-color-per-triangle count. -/
def icosphere (radius : ℚ) (dirs : List Vec3) (tris : List Tri) : Solid :=
  { vertices := dirs.map fun d => ⟨radius * d.x, radius * d.y, radius * d.z⟩
    faces := tris
    colors := List.replicate tris.length defaultColor }

/-- `np.clip(x, lo, hi)` on integers. -/
def np_clip (x lo hi : ℤ) : ℤ := max lo (min x hi)

/-- `get_random_color(base_rgb, variance=25)`: each channel perturbed by a
random integer offset and clamped to `[0, 255]`, alpha fixed at 255.  The
`np.random.randint(-variance, variance)` draws are the explicit argument `d`. -/
def get_random_color (base_rgb : ℤ × ℤ × ℤ) (d : ℤ × ℤ × ℤ) : Color :=
  (np_clip (base_rgb.1 + d.1) 0 255, np_clip (base_rgb.2.1 + d.2.1) 0 255,
   np_clip (base_rgb.2.2 + d.2.2) 0 255, 255)

/-- The fixed irrational sampling data of the trimesh primitive factory,
abstracted (see the module comment): `circle n k` stands for
`(cos, sin)(2πk/n)`, and `sphereDirs`/`sphereFaces` for the subdivision-1
icosphere's unit directions and triangulation. -/
structure Geo where
  circle : ℕ → ℕ → ℚ × ℚ
  sphereDirs : List Vec3
  sphereFaces : List Tri

/-- `create_trunk(height, radius=0.7)`: a 5-section cylinder colored opaque
brown `[101, 67, 33, 255]`, then translated by `[0, 0, height/2]` so its
base sits at `Z = 0`. -/
def create_trunk (height radius : ℚ) (circle : ℕ → ℚ × ℚ) : Solid :=
  apply_translation
    (set_face_colors (cylinder radius height 5 circle) (101, 67, 33, 255))
    ⟨0, 0, height / 2⟩

/-- `OVERLAP_AMOUNT = 0.5`: the fixed overlap value. -/
def OVERLAP_AMOUNT : ℚ := 1 / 2

/-- The roundy tree's crown before stacking: an icosphere colored from base
`(124, 204, 57)`. -/
def roundy_crown (r_crown : ℚ) (off : ℤ × ℤ × ℤ) (geo : Geo) : Solid :=
  set_face_colors (icosphere r_crown geo.sphereDirs geo.sphereFaces)
    (get_random_color (124, 204, 57) off)

/-- The pointy tree's crown before stacking: a 6-section cone colored from
base `(34, 139, 34)`. -/
def pointy_crown (h_crown r_crown : ℚ) (off : ℤ × ℤ × ℤ) (geo : Geo) : Solid :=
  set_face_colors (cone r_crown h_crown 6 (geo.circle 6))
    (get_random_color (34, 139, 34) off)

/-- The stacked tree's first cone before stacking: a 7-section cone colored
from base `(46, 139, 87)`. -/
def stacked_c1 (h1 r1 : ℚ) (off1 : ℤ × ℤ × ℤ) (geo : Geo) : Solid :=
  set_face_colors (cone r1 h1 7 (geo.circle 7))
    (get_random_color (46, 139, 87) off1)

/-- The stacked tree's second cone before stacking: a 7-section cone of
radius 2.0 colored from base `(143, 188, 143)`. -/
def stacked_c2 (h2 : ℚ) (off2 : ℤ × ℤ × ℤ) (geo : Geo) : Solid :=
  set_face_colors (cone 2 h2 7 (geo.circle 7))
    (get_random_color (143, 188, 143) off2)

/-- `create_roundy_tree(pos)`: sphere on trunk.  The draws
`h_trunk ~ U(3,6)`, `r_crown ~ U(2.5,4.5)` and the color offsets are
explicit arguments. -/
def create_roundy_tree (pos : Vec3) (h_trunk r_crown : ℚ) (off : ℤ × ℤ × ℤ)
    (geo : Geo) : Solid :=
  let trunk := create_trunk h_trunk (7 / 10) (geo.circle 5)
  let crown2 := stack_on_top trunk (roundy_crown r_crown off geo) OVERLAP_AMOUNT
  apply_translation (concatenate [trunk, crown2]) pos

/-- `create_pointy_tree(pos)`: cone on trunk.  The draws `h_trunk ~ U(2,4)`,
`h_crown ~ U(6,10)`, `r_crown ~ U(2.5,4.0)` and the color offsets are
explicit arguments. -/
def create_pointy_tree (pos : Vec3) (h_trunk h_crown r_crown : ℚ)
    (off : ℤ × ℤ × ℤ) (geo : Geo) : Solid :=
  let trunk := create_trunk h_trunk (3 / 5) (geo.circle 5)
  let crown2 := stack_on_top trunk (pointy_crown h_crown r_crown off geo)
    OVERLAP_AMOUNT
  apply_translation (concatenate [trunk, crown2]) pos

/-- `create_stacked_tree(pos)`: trunk → cone 1 → cone 2.  The draws
`h_trunk ~ U(2,3)`, `h1 ~ U(3,5)`, `r1 ~ U(3,4)`, `h2 ~ U(2,4)` and the two
color offsets are explicit arguments.  `c1` is stacked on the trunk, `c2` on
the (already stacked) `c1`; the concatenation takes the mutated (translated)
cones, as in the source. -/
def create_stacked_tree (pos : Vec3) (h_trunk h1 r1 h2 : ℚ)
    (off1 off2 : ℤ × ℤ × ℤ) (geo : Geo) : Solid :=
  let trunk := create_trunk h_trunk (7 / 10) (geo.circle 5)
  let c1s := stack_on_top trunk (stacked_c1 h1 r1 off1 geo) OVERLAP_AMOUNT
  let c2s := stack_on_top c1s (stacked_c2 h2 off2 geo) OVERLAP_AMOUNT
  apply_translation (concatenate [trunk, c1s, c2s]) pos

/-- The three tree archetypes. -/
inductive Archetype
  | roundy
  | pointy
  | stacked
deriving DecidableEq, Repr

/-- The archetype chosen by the main loop from the draw `rnd = np.random.rand()`:
`rnd < 0.4` → roundy, `elif rnd < 0.75` → pointy, `else` → stacked. -/
def selectArchetype (rnd : ℚ) : Archetype :=
  if rnd < 2 / 5 then .roundy else if rnd < 3 / 4 then .pointy else .stacked

/-- All random draws one loop iteration may consume: the archetype selector
`rnd`, up to four uniform dimension draws (in the order the chosen branch
draws them), and up to two color-offset triples. -/
structure TreeRand where
  rnd : ℚ
  u1 : ℚ
  u2 : ℚ
  u3 : ℚ
  u4 : ℚ
  off1 : ℤ × ℤ × ℤ
  off2 : ℤ × ℤ × ℤ

/-- One iteration of the main generation loop: dispatch on the selected
archetype (the `if rnd < 0.4 / elif rnd < 0.75 / else` chain of the source)
and build the tree at `pos`. -/
def buildTree (pos : Vec3) (t : TreeRand) (geo : Geo) : Solid :=
  match selectArchetype t.rnd with
  | .roundy => create_roundy_tree pos t.u1 t.u2 t.off1 geo
  | .pointy => create_pointy_tree pos t.u1 t.u2 t.u3 t.off1 geo
  | .stacked => create_stacked_tree pos t.u1 t.u2 t.u3 t.u4 t.off1 t.off2 geo

/-- The `meshes` list of the main loop: one tree per index `i < n_trees`, at
position `[positions[i][0], positions[i][1], 0]`. -/
def treeMeshes (n : ℕ) (posF : ℕ → ℚ × ℚ) (randF : ℕ → TreeRand) (geo : Geo) :
    List Solid :=
  (List.range n).map fun i => buildTree ⟨(posF i).1, (posF i).2, 0⟩ (randF i) geo

/-- `forest_mesh = trimesh.util.concatenate(meshes)`: all trees merged into
one single mesh. -/
def forest_mesh (n : ℕ) (posF : ℕ → ℚ × ℚ) (randF : ℕ → TreeRand) (geo : Geo) :
    Solid :=
  concatenate (treeMeshes n posF randF geo)

/-- The Ground `go.Mesh3d` trace of the figure: 4 corners at `±plot_size/1.8`
in X and Y at `Z = -0.1`, two triangles `(i,j,k) = (0,1,2), (0,2,3)`, flat
color `rgb(160, 200, 120)` (alpha 255 in the RGBA embedding). -/
def groundQuad (plot_size : ℚ) : Solid :=
  { vertices :=
      [⟨-(plot_size / (9 / 5)), -(plot_size / (9 / 5)), -(1 / 10)⟩,
       ⟨plot_size / (9 / 5), -(plot_size / (9 / 5)), -(1 / 10)⟩,
       ⟨plot_size / (9 / 5), plot_size / (9 / 5), -(1 / 10)⟩,
       ⟨-(plot_size / (9 / 5)), plot_size / (9 / 5), -(1 / 10)⟩]
    faces := [(0, 1, 2), (0, 2, 3)]
    colors := [(160, 200, 120, 255), (160, 200, 120, 255)] }

/-- The scene handed to the rendering layer: the figure holds two separate
`go.Mesh3d` traces — the merged tree mesh (`Trees`) and the ground quad
(`Ground`).  The ground is *not* concatenated into `forest_mesh`. -/
def figData (n : ℕ) (plot_size : ℚ) (posF : ℕ → ℚ × ℚ) (randF : ℕ → TreeRand)
    (geo : Geo) : Solid × Solid :=
  (forest_mesh n posF randF geo, groundQuad plot_size)

/-- The whole generation request, with an explicit failure channel in its
type.  The script validates nothing: there is no range check on the tree
count or the plot size anywhere between the sliders and the figure, so the
error branch of this `Except` is never used and the result is
unconditionally `.ok`. -/
def buildForest (n : ℕ) (plot_size : ℚ) (posF : ℕ → ℚ × ℚ)
    (randF : ℕ → TreeRand) (geo : Geo) : Except Unit (Solid × Solid) :=
  Except.ok (figData n plot_size posF randF geo)

/-- Modelled from the spec: `st.slider(label, lo, hi, default)` (presentation
layer, out of scope of the core) — returns the user's choice confined to
`[lo, hi]`; embedded as a clamp of an arbitrary attempted value `v`. -/
def st_slider (lo hi v : ℤ) : ℤ := max lo (min v hi)

/-- The color-count invariant: one color per triangle. -/
def colorOk (s : Solid) : Prop := s.colors.length = s.faces.length

/-- Concrete sampling data for witnesses: every circle direction `(1, 0)`, a
two-point sphere, one sphere triangle. -/
def geoW : Geo :=
  { circle := fun _ _ => (1, 0)
    sphereDirs := [⟨0, 0, 1⟩, ⟨0, 0, -1⟩]
    sphereFaces := [(0, 1, 0)] }

/-- A concrete bottom solid for witnesses (one triangle, Z extent [0, 2]). -/
def solidW1 : Solid :=
  ⟨[⟨0, 0, 0⟩, ⟨1, 0, 2⟩, ⟨0, 1, 1⟩], [(0, 1, 2)], [(10, 20, 30, 255)]⟩

/-- A concrete top solid for witnesses (one triangle, Z extent [5, 7]). -/
def solidW2 : Solid :=
  ⟨[⟨0, 0, 5⟩, ⟨2, 0, 7⟩, ⟨0, 2, 6⟩], [(0, 1, 2)], [(40, 50, 60, 255)]⟩

/-- A concrete position stream for witnesses. -/
def posW : ℕ → ℚ × ℚ := fun _ => (3, 4)

/-- A concrete draw stream for witnesses: selector 0 (roundy), all uniform
draws 3, zero color offsets. -/
def randW : ℕ → TreeRand := fun _ => ⟨0, 3, 3, 3, 3, (0, 0, 0), (0, 0, 0)⟩

section FoldMinMax

/-- Folding `min` over a list only ever lowers the accumulator. -/
theorem foldl_min_le_init (l : List ℚ) (a : ℚ) : l.foldl min a ≤ a := by
  induction l generalizing a with
  | nil => exact le_refl a
  | cons x xs ih => exact le_trans (ih (min a x)) (min_le_left a x)

/-- The fold of `min` is below every list element. -/
theorem foldl_min_le_mem (l : List ℚ) (a x : ℚ) (hx : x ∈ l) :
    l.foldl min a ≤ x := by
  induction l generalizing a with
  | nil => cases hx
  | cons y ys ih =>
    rcases List.mem_cons.mp hx with h | h
    · subst h
      exact le_trans (foldl_min_le_init ys (min a x)) (min_le_right a x)
    · exact ih (min a y) h

/-- A common lower bound of the accumulator and the list bounds the fold. -/
theorem le_foldl_min (l : List ℚ) (a b : ℚ) (hba : b ≤ a)
    (h : ∀ x ∈ l, b ≤ x) : b ≤ l.foldl min a := by
  induction l generalizing a with
  | nil => exact hba
  | cons x xs ih =>
    exact ih (min a x) (le_min hba (h x (List.mem_cons_self x xs)))
      (fun y hy => h y (List.mem_cons_of_mem x hy))

/-- Pulling a `min` out of the accumulator of a `min`-fold. -/
theorem foldl_min_min (l : List ℚ) (a b : ℚ) :
    l.foldl min (min a b) = min a (l.foldl min b) := by
  induction l generalizing b with
  | nil => rfl
  | cons x xs ih =>
    simp only [List.foldl_cons, min_assoc]
    exact ih (min b x)

/-- Folding `max` over a list only ever raises the accumulator. -/
theorem le_foldl_max_init (l : List ℚ) (a : ℚ) : a ≤ l.foldl max a := by
  induction l generalizing a with
  | nil => exact le_refl a
  | cons x xs ih => exact le_trans (le_max_left a x) (ih (max a x))

/-- Every list element is below the fold of `max`. -/
theorem mem_le_foldl_max (l : List ℚ) (a x : ℚ) (hx : x ∈ l) :
    x ≤ l.foldl max a := by
  induction l generalizing a with
  | nil => cases hx
  | cons y ys ih =>
    rcases List.mem_cons.mp hx with h | h
    · subst h
      exact le_trans (le_max_right a x) (le_foldl_max_init ys (max a x))
    · exact ih (max a y) h

/-- A common upper bound of the accumulator and the list bounds the fold. -/
theorem foldl_max_le (l : List ℚ) (a b : ℚ) (hab : a ≤ b)
    (h : ∀ x ∈ l, x ≤ b) : l.foldl max a ≤ b := by
  induction l generalizing a with
  | nil => exact hab
  | cons x xs ih =>
    exact ih (max a x) (max_le hab (h x (List.mem_cons_self x xs)))
      (fun y hy => h y (List.mem_cons_of_mem x hy))

/-- Pulling a `max` out of the accumulator of a `max`-fold. -/
theorem foldl_max_max (l : List ℚ) (a b : ℚ) :
    l.foldl max (max a b) = max a (l.foldl max b) := by
  induction l generalizing b with
  | nil => rfl
  | cons x xs ih =>
    simp only [List.foldl_cons, max_assoc]
    exact ih (max b x)

end FoldMinMax

section MinMaxList

/-- A lower bound of a nonempty list bounds its `minL`. -/
theorem le_minL (l : List ℚ) (b : ℚ) (hne : l ≠ []) (h : ∀ x ∈ l, b ≤ x) :
    b ≤ minL l := by
  cases l with
  | nil => exact absurd rfl hne
  | cons z zs =>
    exact le_foldl_min zs z b (h z (List.mem_cons_self z zs))
      (fun x hx => h x (List.mem_cons_of_mem z hx))

/-- `minL` is below every element of the list. -/
theorem minL_le_mem (l : List ℚ) (x : ℚ) (hx : x ∈ l) : minL l ≤ x := by
  cases l with
  | nil => cases hx
  | cons z zs =>
    rcases List.mem_cons.mp hx with h | h
    · subst h; exact foldl_min_le_init zs x
    · exact foldl_min_le_mem zs z x h

/-- Every element of a nonempty list is below its `maxL`. -/
theorem mem_le_maxL (l : List ℚ) (x : ℚ) (hx : x ∈ l) : x ≤ maxL l := by
  cases l with
  | nil => cases hx
  | cons z zs =>
    rcases List.mem_cons.mp hx with h | h
    · subst h; exact le_foldl_max_init zs x
    · exact mem_le_foldl_max zs z x h

/-- An upper bound of a nonempty list bounds its `maxL`. -/
theorem maxL_le (l : List ℚ) (b : ℚ) (hne : l ≠ []) (h : ∀ x ∈ l, x ≤ b) :
    maxL l ≤ b := by
  cases l with
  | nil => exact absurd rfl hne
  | cons z zs =>
    exact foldl_max_le zs z b (h z (List.mem_cons_self z zs))
      (fun x hx => h x (List.mem_cons_of_mem z hx))

/-- Seeding a `min`-fold is taking `min` with `minL`. -/
theorem foldl_min_eq_minL (l : List ℚ) (a : ℚ) (h : l ≠ []) :
    l.foldl min a = min a (minL l) := by
  cases l with
  | nil => exact absurd rfl h
  | cons w ws => exact foldl_min_min ws a w

/-- Seeding a `max`-fold is taking `max` with `maxL`. -/
theorem foldl_max_eq_maxL (l : List ℚ) (a : ℚ) (h : l ≠ []) :
    l.foldl max a = max a (maxL l) := by
  cases l with
  | nil => exact absurd rfl h
  | cons w ws => exact foldl_max_max ws a w

/-- `minL` of an append of nonempty lists is the `min` of the parts. -/
theorem minL_append (l1 l2 : List ℚ) (h1 : l1 ≠ []) (h2 : l2 ≠ []) :
    minL (l1 ++ l2) = min (minL l1) (minL l2) := by
  cases l1 with
  | nil => exact absurd rfl h1
  | cons z zs =>
    show (zs ++ l2).foldl min z = _
    rw [List.foldl_append, foldl_min_eq_minL l2 _ h2]
    rfl

/-- `maxL` of an append of nonempty lists is the `max` of the parts. -/
theorem maxL_append (l1 l2 : List ℚ) (h1 : l1 ≠ []) (h2 : l2 ≠ []) :
    maxL (l1 ++ l2) = max (maxL l1) (maxL l2) := by
  cases l1 with
  | nil => exact absurd rfl h1
  | cons z zs =>
    show (zs ++ l2).foldl max z = _
    rw [List.foldl_append, foldl_max_eq_maxL l2 _ h2]
    rfl

/-- Shifting every element of a list shifts the seeded `min`-fold. -/
theorem foldl_min_map_add (l : List ℚ) (a c : ℚ) :
    (l.map (· + c)).foldl min (a + c) = l.foldl min a + c := by
  induction l generalizing a with
  | nil => rfl
  | cons x xs ih =>
    show (xs.map (· + c)).foldl min (min (a + c) (x + c)) = _
    rw [min_add_add_right, ih (min a x)]
    rfl

/-- Shifting every element of a list shifts the seeded `max`-fold. -/
theorem foldl_max_map_add (l : List ℚ) (a c : ℚ) :
    (l.map (· + c)).foldl max (a + c) = l.foldl max a + c := by
  induction l generalizing a with
  | nil => rfl
  | cons x xs ih =>
    show (xs.map (· + c)).foldl max (max (a + c) (x + c)) = _
    rw [max_add_add_right, ih (max a x)]
    rfl

/-- Shifting every element of a nonempty list shifts its `minL`. -/
theorem minL_map_add (l : List ℚ) (c : ℚ) (h : l ≠ []) :
    minL (l.map (· + c)) = minL l + c := by
  cases l with
  | nil => exact absurd rfl h
  | cons z zs => exact foldl_min_map_add zs z c

/-- Shifting every element of a nonempty list shifts its `maxL`. -/
theorem maxL_map_add (l : List ℚ) (c : ℚ) (h : l ≠ []) :
    maxL (l.map (· + c)) = maxL l + c := by
  cases l with
  | nil => exact absurd rfl h
  | cons z zs => exact foldl_max_map_add zs z c

end MinMaxList

section BoundsLemmas

/-- Translating a solid shifts its Z coordinate list elementwise. -/
theorem zList_apply_translation (s : Solid) (d : Vec3) :
    zList (apply_translation s d) = (zList s).map (· + d.z) := by
  simp [zList, apply_translation, List.map_map, Function.comp]

/-- A solid with vertices has a nonempty Z coordinate list. -/
theorem zList_ne_nil (s : Solid) (h : s.vertices ≠ []) : zList s ≠ [] := by
  simpa [zList] using h

/-- Translating a nonempty solid shifts its least Z by the Z component. -/
theorem minZ_apply_translation (s : Solid) (d : Vec3) (h : s.vertices ≠ []) :
    minZ (apply_translation s d) = minZ s + d.z := by
  rw [minZ, zList_apply_translation, minL_map_add _ _ (zList_ne_nil s h)]
  rfl

/-- Translating a nonempty solid shifts its greatest Z by the Z component. -/
theorem maxZ_apply_translation (s : Solid) (d : Vec3) (h : s.vertices ≠ []) :
    maxZ (apply_translation s d) = maxZ s + d.z := by
  rw [maxZ, zList_apply_translation, maxL_map_add _ _ (zList_ne_nil s h)]
  rfl

end BoundsLemmas

section StackClaims

/-- C1: for every pair of solids `bottom` and `top` and every `overlap ≥ 0`,
after `stack_on_top(bottom, top, overlap)` the minimum Z coordinate over
`top`'s vertices equals the maximum Z coordinate over `bottom`'s vertices
minus `overlap` — exactly in this rational embedding, hence in particular
within the floating-point tolerance `1e-6` — and the shift applied is
`(max Z of bottom - overlap) - (min Z of top)`. -/
theorem stack_on_top_gap_elimination (bottom top : Solid) (overlap : ℚ)
    (hb : bottom.vertices ≠ []) (ht : top.vertices ≠ []) (ho : 0 ≤ overlap) :
    minZ (stack_on_top bottom top overlap) = maxZ bottom - overlap ∧
    stack_on_top bottom top overlap =
      apply_translation top ⟨0, 0, (maxZ bottom - overlap) - minZ top⟩ := by
  constructor
  · rw [stack_on_top, minZ_apply_translation top _ ht]
    show minZ top + shift_z bottom top overlap = _
    rw [shift_z]
    ring
  · rfl

/-- Witness for C1 at the concrete solids `solidW1`, `solidW2`, overlap 1/2. -/
theorem stack_on_top_gap_elimination_check :
    solidW1.vertices ≠ [] ∧ solidW2.vertices ≠ [] ∧ (0 : ℚ) ≤ 1 / 2 ∧
    minZ (stack_on_top solidW1 solidW2 (1 / 2)) = maxZ solidW1 - 1 / 2 :=
  ⟨by decide, by decide, by norm_num,
    (stack_on_top_gap_elimination solidW1 solidW2 (1 / 2) (by decide) (by decide)
      (by norm_num)).1⟩

/-- C3: `stack_on_top` changes no vertex's X or Y coordinate of the top
solid — the lists of X values and of Y values over `top`'s vertices are
unchanged (only Z is translated, and the vertex count is preserved). -/
theorem stack_on_top_preserves_xy (bottom top : Solid) (overlap : ℚ) :
    (stack_on_top bottom top overlap).vertices.map Vec3.x =
      top.vertices.map Vec3.x ∧
    (stack_on_top bottom top overlap).vertices.map Vec3.y =
      top.vertices.map Vec3.y ∧
    (stack_on_top bottom top overlap).vertices.map Vec3.z =
      top.vertices.map (fun v => v.z + shift_z bottom top overlap) := by
  refine ⟨?_, ?_, ?_⟩ <;>
    simp [stack_on_top, apply_translation, List.map_map, Function.comp]

/-- C9: `stack_on_top(bottom, top, overlap)` leaves the bottom solid
completely unchanged — after the call (whose post-state on the argument pair
is `stack_state`) every vertex, every triangle index triple and every face
color of `bottom` is identical to before; only the top solid is translated. -/
theorem stack_state_bottom_unchanged (bottom top : Solid) (overlap : ℚ) :
    (stack_state bottom top overlap).1.vertices = bottom.vertices ∧
    (stack_state bottom top overlap).1.faces = bottom.faces ∧
    (stack_state bottom top overlap).1.colors = bottom.colors ∧
    (stack_state bottom top overlap).2 =
      apply_translation top ⟨0, 0, shift_z bottom top overlap⟩ :=
  ⟨rfl, rfl, rfl, rfl⟩

end StackClaims

section StructuralLemmas

/-- Folding `min` of a value over copies of itself changes nothing. -/
theorem foldl_min_replicate (m : ℕ) (a : ℚ) :
    (List.replicate m a).foldl min a = a := by
  induction m with
  | zero => rfl
  | succ k ih => simpa [List.replicate_succ, min_self] using ih

/-- Folding `max` of a value over copies of itself changes nothing. -/
theorem foldl_max_replicate (m : ℕ) (a : ℚ) :
    (List.replicate m a).foldl max a = a := by
  induction m with
  | zero => rfl
  | succ k ih => simpa [List.replicate_succ, max_self] using ih

/-- `minL` of a nonempty constant list is the constant. -/
theorem minL_replicate (n : ℕ) (a : ℚ) (h : n ≠ 0) :
    minL (List.replicate n a) = a := by
  cases n with
  | zero => exact absurd rfl h
  | succ m => simpa [List.replicate_succ, minL] using foldl_min_replicate m a

/-- `maxL` of a nonempty constant list is the constant. -/
theorem maxL_replicate (n : ℕ) (a : ℚ) (h : n ≠ 0) :
    maxL (List.replicate n a) = a := by
  cases n with
  | zero => exact absurd rfl h
  | succ m => simpa [List.replicate_succ, maxL] using foldl_max_replicate m a

/-- The Z coordinates of a vertex ring are constant. -/
theorem zmap_ring_verts (radius z : ℚ) (n : ℕ) (circle : ℕ → ℚ × ℚ) :
    (ring_verts radius z n circle).map Vec3.z = List.replicate n z := by
  have hfun : (Vec3.z ∘ fun k =>
      (⟨radius * (circle k).1, radius * (circle k).2, z⟩ : Vec3)) = fun _ => z := rfl
  simp only [ring_verts, List.map_map, hfun, List.map_const', List.length_range]

/-- A nonempty-count replicate list is not nil. -/
theorem replicate_ne_nil_q (n : ℕ) (a : ℚ) (hn : n ≠ 0) :
    (List.replicate n a : List ℚ) ≠ [] := by
  intro h
  exact hn (by simpa using congrArg List.length h)

/-- Recoloring does not move vertices. -/
theorem zList_set_face_colors (s : Solid) (c : Color) :
    zList (set_face_colors s c) = zList s := rfl

/-- `concat2` appends the vertex lists. -/
theorem zList_concat2 (a b : Solid) :
    zList (concat2 a b) = zList a ++ zList b := by
  simp [zList, concat2]

/-- Least Z of a merge of nonempty solids is the lesser of the parts. -/
theorem minZ_concat2 (a b : Solid) (ha : a.vertices ≠ []) (hb : b.vertices ≠ []) :
    minZ (concat2 a b) = min (minZ a) (minZ b) := by
  rw [minZ, zList_concat2, minL_append _ _ (zList_ne_nil a ha) (zList_ne_nil b hb)]
  rfl

/-- Greatest Z of a merge of nonempty solids is the greater of the parts. -/
theorem maxZ_concat2 (a b : Solid) (ha : a.vertices ≠ []) (hb : b.vertices ≠ []) :
    maxZ (concat2 a b) = max (maxZ a) (maxZ b) := by
  rw [maxZ, zList_concat2, maxL_append _ _ (zList_ne_nil a ha) (zList_ne_nil b hb)]
  rfl

/-- Offsetting triangle indices by `0` is the identity. -/
theorem offset_tri_zero : offset_tri 0 = id := by
  funext t
  simp [offset_tri]

/-- Merging onto the empty solid gives back the solid. -/
theorem concat2_empty_left (s : Solid) : concat2 emptySolid s = s := by
  simp [concat2, emptySolid, offset_tri_zero]

/-- `concatenate` of a pair is one merge. -/
theorem concatenate_pair (a b : Solid) : concatenate [a, b] = concat2 a b := by
  simp [concatenate, concat2_empty_left]

/-- `concatenate` of a triple is two merges. -/
theorem concatenate_triple (a b c : Solid) :
    concatenate [a, b, c] = concat2 (concat2 a b) c := by
  simp [concatenate, concat2_empty_left]

/-- A vertex ring of positive section count is nonempty. -/
theorem ring_verts_ne_nil (radius z : ℚ) (n : ℕ) (circle : ℕ → ℚ × ℚ)
    (h : n ≠ 0) : ring_verts radius z n circle ≠ [] := by
  simp [ring_verts, h, List.range_eq_nil]

/-- Translation keeps the vertex list nonempty. -/
theorem apply_translation_vertices_ne_nil (s : Solid) (d : Vec3)
    (h : s.vertices ≠ []) : (apply_translation s d).vertices ≠ [] := by
  simpa [apply_translation] using h

/-- The Z coordinates of a cylinder: bottom ring then top ring. -/
theorem zList_cylinder (radius height : ℚ) (n : ℕ) (circle : ℕ → ℚ × ℚ) :
    zList (cylinder radius height n circle) =
      List.replicate n (-(height / 2)) ++ List.replicate n (height / 2) := by
  simp [zList, cylinder, zmap_ring_verts]

/-- Cylinder bounds: Z extent `[-height/2, height/2]` (nonnegative height). -/
theorem cylinder_bounds (radius height : ℚ) (n : ℕ) (circle : ℕ → ℚ × ℚ)
    (hn : n ≠ 0) (hh : 0 ≤ height) :
    minZ (cylinder radius height n circle) = -(height / 2) ∧
    maxZ (cylinder radius height n circle) = height / 2 := by
  have hrep : (List.replicate n (-(height / 2)) : List ℚ) ≠ [] :=
    replicate_ne_nil_q n _ hn
  have hrep2 : (List.replicate n (height / 2) : List ℚ) ≠ [] :=
    replicate_ne_nil_q n _ hn
  constructor
  · rw [minZ, zList_cylinder, minL_append _ _ hrep hrep2,
      minL_replicate n _ hn, minL_replicate n _ hn]
    exact min_eq_left (by linarith)
  · rw [maxZ, zList_cylinder, maxL_append _ _ hrep hrep2,
      maxL_replicate n _ hn, maxL_replicate n _ hn]
    exact max_eq_right (by linarith)

/-- A cylinder of positive section count has vertices. -/
theorem cylinder_vertices_ne_nil (radius height : ℚ) (n : ℕ)
    (circle : ℕ → ℚ × ℚ) (hn : n ≠ 0) :
    (cylinder radius height n circle).vertices ≠ [] := by
  simp [cylinder, ring_verts, List.range_eq_nil, hn]

/-- The Z coordinates of a cone: base ring, base center, apex. -/
theorem zList_cone (radius height : ℚ) (n : ℕ) (circle : ℕ → ℚ × ℚ) :
    zList (cone radius height n circle) =
      List.replicate n (-(height / 2)) ++ [-(height / 2), height / 2] := by
  simp [zList, cone, zmap_ring_verts]

/-- Cone bounds: base plane at `-height/2`, apex at `height/2`. -/
theorem cone_bounds (radius height : ℚ) (n : ℕ) (circle : ℕ → ℚ × ℚ)
    (hn : n ≠ 0) (hh : 0 ≤ height) :
    minZ (cone radius height n circle) = -(height / 2) ∧
    maxZ (cone radius height n circle) = height / 2 := by
  have hrep : (List.replicate n (-(height / 2)) : List ℚ) ≠ [] :=
    replicate_ne_nil_q n _ hn
  have hpair : ([-(height / 2), height / 2] : List ℚ) ≠ [] := by simp
  have hminpair : minL [-(height / 2), height / 2] = -(height / 2) := by
    show min (-(height / 2)) (height / 2) = -(height / 2)
    exact min_eq_left (by linarith)
  have hmaxpair : maxL [-(height / 2), height / 2] = height / 2 := by
    show max (-(height / 2)) (height / 2) = height / 2
    exact max_eq_right (by linarith)
  constructor
  · rw [minZ, zList_cone, minL_append _ _ hrep hpair,
      minL_replicate n _ hn, hminpair, min_self]
  · rw [maxZ, zList_cone, maxL_append _ _ hrep hpair, maxL_replicate n _ hn,
      hmaxpair]
    exact max_eq_right (by linarith)

/-- A cone always has vertices (base center and apex at least). -/
theorem cone_vertices_ne_nil (radius height : ℚ) (n : ℕ)
    (circle : ℕ → ℚ × ℚ) : (cone radius height n circle).vertices ≠ [] := by
  simp [cone]

end StructuralLemmas

section TrunkConeClaims

/-- Recoloring does not change the least Z. -/
theorem minZ_set_face_colors (s : Solid) (c : Color) :
    minZ (set_face_colors s c) = minZ s := rfl

/-- Recoloring does not change the greatest Z. -/
theorem maxZ_set_face_colors (s : Solid) (c : Color) :
    maxZ (set_face_colors s c) = maxZ s := rfl

/-- Recoloring does not change the vertices. -/
theorem set_face_colors_vertices (s : Solid) (c : Color) :
    (set_face_colors s c).vertices = s.vertices := rfl

/-- The trunk's vertical extent is `[0, height]` (helper shared by claims). -/
theorem create_trunk_bounds (height radius : ℚ) (circle : ℕ → ℚ × ℚ)
    (hh : 0 ≤ height) :
    minZ (create_trunk height radius circle) = 0 ∧
    maxZ (create_trunk height radius circle) = height := by
  have hne : (set_face_colors (cylinder radius height 5 circle)
      (101, 67, 33, 255)).vertices ≠ [] := by
    rw [set_face_colors_vertices]
    exact cylinder_vertices_ne_nil radius height 5 circle (by norm_num)
  obtain ⟨hmin, hmax⟩ := cylinder_bounds radius height 5 circle (by norm_num) hh
  constructor
  · rw [create_trunk, minZ_apply_translation _ _ hne, minZ_set_face_colors, hmin]
    show -(height / 2) + height / 2 = 0
    ring
  · rw [create_trunk, maxZ_apply_translation _ _ hne, maxZ_set_face_colors, hmax]
    show height / 2 + height / 2 = height
    ring

/-- The trunk has vertices (helper shared by claims). -/
theorem create_trunk_vertices_ne_nil (height radius : ℚ) (circle : ℕ → ℚ × ℚ) :
    (create_trunk height radius circle).vertices ≠ [] := by
  apply apply_translation_vertices_ne_nil
  rw [set_face_colors_vertices]
  exact cylinder_vertices_ne_nil radius height 5 circle (by norm_num)

/-- C4: for every `height > 0` and `radius > 0`, `create_trunk` returns the
cylindrical solid with the fixed 5-segment cross-section (hence 2·5 ring
vertices and the 5-gon cylinder triangulation), whose lowest vertex is exactly
at local Z = 0 and highest exactly at Z = height, and every face is colored
(R=101, G=67, B=33, A=255). -/
theorem create_trunk_contract (height radius : ℚ) (circle : ℕ → ℚ × ℚ)
    (hh : 0 < height) (hr : 0 < radius) :
    minZ (create_trunk height radius circle) = 0 ∧
    maxZ (create_trunk height radius circle) = height ∧
    (create_trunk height radius circle).vertices.length = 2 * 5 ∧
    (create_trunk height radius circle).faces = cylinder_faces 5 ∧
    (create_trunk height radius circle).colors ≠ [] ∧
    ∀ c ∈ (create_trunk height radius circle).colors, c = (101, 67, 33, 255) := by
  obtain ⟨hmin, hmax⟩ := create_trunk_bounds height radius circle (le_of_lt hh)
  refine ⟨hmin, hmax, ?_, rfl, ?_, ?_⟩
  · simp [create_trunk, apply_translation, set_face_colors, cylinder, ring_verts]
  · show List.replicate (cylinder_faces 5).length (101, 67, 33, 255) ≠ []
    decide
  · intro c hc
    exact List.eq_of_mem_replicate hc

/-- Witness for C4 at `height = 3`, `radius = 7/10`. -/
theorem create_trunk_contract_check :
    (0 : ℚ) < 3 ∧ (0 : ℚ) < 7 / 10 ∧
    minZ (create_trunk 3 (7 / 10) fun _ => (1, 0)) = 0 ∧
    maxZ (create_trunk 3 (7 / 10) fun _ => (1, 0)) = 3 ∧
    (create_trunk 3 (7 / 10) fun _ => (1, 0)).vertices.length = 2 * 5 ∧
    (create_trunk 3 (7 / 10) fun _ => (1, 0)).faces = cylinder_faces 5 ∧
    (create_trunk 3 (7 / 10) fun _ => (1, 0)).colors ≠ [] ∧
    ∀ c ∈ (create_trunk 3 (7 / 10) fun _ => (1, 0)).colors,
      c = (101, 67, 33, 255) :=
  ⟨by norm_num, by norm_num,
    create_trunk_contract 3 (7 / 10) (fun _ => (1, 0)) (by norm_num) (by norm_num)⟩

/-- C5: for every `radius > 0`, `height > 0` and `sections ∈ {6, 7}`, the
cone-crown solid has its base plane at local Z = -height/2 and its apex
vertex at `height` above the base-plane center (local Z = -height/2 + height),
so its vertical extent spans `[-height/2, height/2]` before any stacking. -/
theorem cone_crown_local_frame (radius height : ℚ) (sections : ℕ)
    (circle : ℕ → ℚ × ℚ) (hr : 0 < radius) (hh : 0 < height)
    (hs : sections = 6 ∨ sections = 7) :
    minZ (cone radius height sections circle) = -(height / 2) ∧
    maxZ (cone radius height sections circle) = -(height / 2) + height ∧
    (⟨0, 0, height / 2⟩ : Vec3) ∈ (cone radius height sections circle).vertices := by
  have hn : sections ≠ 0 := by rcases hs with h | h <;> simp [h]
  obtain ⟨hmin, hmax⟩ := cone_bounds radius height sections circle hn (le_of_lt hh)
  refine ⟨hmin, ?_, ?_⟩
  · rw [hmax]; ring
  · simp [cone]

/-- Witness for C5 at `radius = 1`, `height = 2`, `sections = 6`. -/
theorem cone_crown_local_frame_check :
    (0 : ℚ) < 1 ∧ (0 : ℚ) < 2 ∧ ((6 : ℕ) = 6 ∨ (6 : ℕ) = 7) ∧
    minZ (cone 1 2 6 fun _ => (1, 0)) = -(2 / 2) ∧
    maxZ (cone 1 2 6 fun _ => (1, 0)) = -(2 / 2) + 2 ∧
    (⟨0, 0, 2 / 2⟩ : Vec3) ∈ (cone 1 2 6 fun _ => (1, 0)).vertices :=
  ⟨by norm_num, by norm_num, Or.inl rfl,
    cone_crown_local_frame 1 2 6 (fun _ => (1, 0)) (by norm_num) (by norm_num)
      (Or.inl rfl)⟩

end TrunkConeClaims

section ArchetypeClaim

/-- C6: for each tree, one uniform draw `rnd ∈ [0,1)` selects the archetype
by exactly the thresholds of the main loop: `rnd < 0.4` yields roundy,
`0.4 ≤ rnd < 0.75` yields pointy, `rnd ≥ 0.75` yields stacked (hence the
selector partitions `[0,1)` into pieces of measure 0.40 / 0.35 / 0.25). -/
theorem archetype_selection_thresholds (rnd : ℚ) (h0 : 0 ≤ rnd) (h1 : rnd < 1) :
    (selectArchetype rnd = .roundy ↔ rnd < 2 / 5) ∧
    (selectArchetype rnd = .pointy ↔ 2 / 5 ≤ rnd ∧ rnd < 3 / 4) ∧
    (selectArchetype rnd = .stacked ↔ 3 / 4 ≤ rnd) := by
  unfold selectArchetype
  split_ifs with ha hb
  · refine ⟨⟨fun _ => ha, fun _ => rfl⟩, ?_, ?_⟩
    · exact ⟨fun h => absurd h (by decide), fun hc => absurd ha (not_lt.mpr hc.1)⟩
    · exact ⟨fun h => absurd h (by decide),
        fun hc => absurd ha (not_lt.mpr (le_trans (by norm_num) hc))⟩
  · refine ⟨?_, ⟨fun _ => ⟨not_lt.mp ha, hb⟩, fun _ => rfl⟩, ?_⟩
    · exact ⟨fun h => absurd h (by decide), fun hc => absurd hc ha⟩
    · exact ⟨fun h => absurd h (by decide), fun hc => absurd hb (not_lt.mpr hc)⟩
  · refine ⟨?_, ?_, ⟨fun _ => not_lt.mp hb, fun _ => rfl⟩⟩
    · exact ⟨fun h => absurd h (by decide), fun hc => absurd hc ha⟩
    · exact ⟨fun h => absurd h (by decide), fun hc => absurd hc.2 hb⟩

/-- Witness for C6 at `rnd = 1/2` (the pointy band). -/
theorem archetype_selection_thresholds_check :
    (0 : ℚ) ≤ 1 / 2 ∧ (1 / 2 : ℚ) < 1 ∧ selectArchetype (1 / 2) = .pointy :=
  ⟨by norm_num, by norm_num,
    ((archetype_selection_thresholds (1 / 2) (by norm_num) (by norm_num)).2.1).mpr
      (by norm_num)⟩

end ArchetypeClaim

section ColorCount

/-- The empty solid trivially satisfies the color-count invariant. -/
theorem colorOk_emptySolid : colorOk emptySolid := rfl

/-- Broadcasting a face color establishes the invariant. -/
theorem colorOk_set_face_colors (s : Solid) (c : Color) :
    colorOk (set_face_colors s c) := by
  simp [colorOk, set_face_colors]

/-- Translation preserves the invariant. -/
theorem colorOk_apply_translation (s : Solid) (d : Vec3) (h : colorOk s) :
    colorOk (apply_translation s d) := by
  simpa [colorOk, apply_translation] using h

/-- Stacking preserves the invariant of the top solid. -/
theorem colorOk_stack_on_top (b t : Solid) (o : ℚ) (h : colorOk t) :
    colorOk (stack_on_top b t o) :=
  colorOk_apply_translation _ _ h

/-- Merging two invariant-satisfying solids preserves the invariant. -/
theorem colorOk_concat2 (a b : Solid) (ha : colorOk a) (hb : colorOk b) :
    colorOk (concat2 a b) := by
  simp only [colorOk, concat2, List.length_append, List.length_map]
  rw [ha, hb]

/-- Folding `concat2` over invariant-satisfying solids keeps the invariant. -/
theorem colorOk_foldl (l : List Solid) (acc : Solid) (hacc : colorOk acc)
    (h : ∀ s ∈ l, colorOk s) : colorOk (l.foldl concat2 acc) := by
  induction l generalizing acc with
  | nil => exact hacc
  | cons x xs ih =>
    exact ih (concat2 acc x)
      (colorOk_concat2 acc x hacc (h x (List.mem_cons_self x xs)))
      (fun s hs => h s (List.mem_cons_of_mem x hs))

/-- Concatenation of invariant-satisfying solids keeps the invariant. -/
theorem colorOk_concatenate (l : List Solid) (h : ∀ s ∈ l, colorOk s) :
    colorOk (concatenate l) :=
  colorOk_foldl l emptySolid colorOk_emptySolid h

/-- Freshly created cylinders satisfy the invariant. -/
theorem colorOk_cylinder (radius height : ℚ) (n : ℕ) (circle : ℕ → ℚ × ℚ) :
    colorOk (cylinder radius height n circle) := by
  simp [colorOk, cylinder]

/-- Freshly created cones satisfy the invariant. -/
theorem colorOk_cone (radius height : ℚ) (n : ℕ) (circle : ℕ → ℚ × ℚ) :
    colorOk (cone radius height n circle) := by
  simp [colorOk, cone]

/-- Freshly created icospheres satisfy the invariant. -/
theorem colorOk_icosphere (radius : ℚ) (dirs : List Vec3) (tris : List Tri) :
    colorOk (icosphere radius dirs tris) := by
  simp [colorOk, icosphere]

/-- The trunk satisfies the invariant. -/
theorem colorOk_create_trunk (height radius : ℚ) (circle : ℕ → ℚ × ℚ) :
    colorOk (create_trunk height radius circle) :=
  colorOk_apply_translation _ _ (colorOk_set_face_colors _ _)

/-- Roundy trees satisfy the invariant. -/
theorem colorOk_create_roundy_tree (pos : Vec3) (a b : ℚ) (off : ℤ × ℤ × ℤ)
    (geo : Geo) : colorOk (create_roundy_tree pos a b off geo) := by
  refine colorOk_apply_translation _ _ (colorOk_concatenate _ ?_)
  intro s hs
  rcases List.mem_cons.mp hs with rfl | hs2
  · exact colorOk_create_trunk _ _ _
  · rcases List.mem_cons.mp hs2 with rfl | hs3
    · exact colorOk_stack_on_top _ _ _ (colorOk_set_face_colors _ _)
    · cases hs3

/-- Pointy trees satisfy the invariant. -/
theorem colorOk_create_pointy_tree (pos : Vec3) (a b c : ℚ) (off : ℤ × ℤ × ℤ)
    (geo : Geo) : colorOk (create_pointy_tree pos a b c off geo) := by
  refine colorOk_apply_translation _ _ (colorOk_concatenate _ ?_)
  intro s hs
  rcases List.mem_cons.mp hs with rfl | hs2
  · exact colorOk_create_trunk _ _ _
  · rcases List.mem_cons.mp hs2 with rfl | hs3
    · exact colorOk_stack_on_top _ _ _ (colorOk_set_face_colors _ _)
    · cases hs3

/-- Stacked trees satisfy the invariant. -/
theorem colorOk_create_stacked_tree (pos : Vec3) (a b c d : ℚ)
    (o1 o2 : ℤ × ℤ × ℤ) (geo : Geo) :
    colorOk (create_stacked_tree pos a b c d o1 o2 geo) := by
  refine colorOk_apply_translation _ _ (colorOk_concatenate _ ?_)
  intro s hs
  rcases List.mem_cons.mp hs with rfl | hs2
  · exact colorOk_create_trunk _ _ _
  · rcases List.mem_cons.mp hs2 with rfl | hs3
    · exact colorOk_stack_on_top _ _ _ (colorOk_set_face_colors _ _)
    · rcases List.mem_cons.mp hs3 with rfl | hs4
      · exact colorOk_stack_on_top _ _ _ (colorOk_set_face_colors _ _)
      · cases hs4

/-- Every tree the main loop builds satisfies the invariant. -/
theorem colorOk_buildTree (pos : Vec3) (t : TreeRand) (geo : Geo) :
    colorOk (buildTree pos t geo) := by
  unfold buildTree
  cases selectArchetype t.rnd
  · exact colorOk_create_roundy_tree _ _ _ _ _
  · exact colorOk_create_pointy_tree _ _ _ _ _ _
  · exact colorOk_create_stacked_tree _ _ _ _ _ _ _ _

/-- C8: for every solid produced by the primitive factory (cylinder, cone,
icosphere, trunk), every assembled tree of each archetype, the merged forest
for any tree count and draw streams, and the ground quad, the per-triangle
color array has exactly one entry per triangle index triple — the invariant
is established by creation/recoloring and preserved by every stacking and
concatenation step. -/
theorem color_count_invariant :
    (∀ radius height n circle, colorOk (cylinder radius height n circle)) ∧
    (∀ radius height n circle, colorOk (cone radius height n circle)) ∧
    (∀ radius dirs tris, colorOk (icosphere radius dirs tris)) ∧
    (∀ height radius circle, colorOk (create_trunk height radius circle)) ∧
    (∀ pos a b off geo, colorOk (create_roundy_tree pos a b off geo)) ∧
    (∀ pos a b c off geo, colorOk (create_pointy_tree pos a b c off geo)) ∧
    (∀ pos a b c d o1 o2 geo,
      colorOk (create_stacked_tree pos a b c d o1 o2 geo)) ∧
    (∀ n posF randF geo, colorOk (forest_mesh n posF randF geo)) ∧
    (∀ plot_size, colorOk (groundQuad plot_size)) := by
  refine ⟨colorOk_cylinder, colorOk_cone, colorOk_icosphere, colorOk_create_trunk,
    colorOk_create_roundy_tree, colorOk_create_pointy_tree,
    colorOk_create_stacked_tree, ?_, fun _ => rfl⟩
  intro n posF randF geo
  refine colorOk_concatenate _ ?_
  intro s hs
  obtain ⟨i, _, rfl⟩ := List.mem_map.mp hs
  exact colorOk_buildTree _ _ _

end ColorCount

section TreeBaseClaims

/-- The stacked top's least Z lands at the bottom's greatest Z minus the
overlap (helper shared by the stacking claims). -/
theorem minZ_stack_on_top (b t : Solid) (o : ℚ) (ht : t.vertices ≠ []) :
    minZ (stack_on_top b t o) = maxZ b - o := by
  rw [stack_on_top, minZ_apply_translation t _ ht]
  show minZ t + shift_z b t o = _
  rw [shift_z]
  ring

/-- The stacked top's greatest Z is the landing point plus the top's own
vertical extent (helper shared by the stacking claims). -/
theorem maxZ_stack_on_top (b t : Solid) (o : ℚ) (ht : t.vertices ≠ []) :
    maxZ (stack_on_top b t o) = (maxZ b - o) + (maxZ t - minZ t) := by
  rw [stack_on_top, maxZ_apply_translation t _ ht]
  show maxZ t + shift_z b t o = _
  rw [shift_z]
  ring

/-- An icosphere over a nonempty direction list has vertices. -/
theorem icosphere_vertices_ne_nil (radius : ℚ) (dirs : List Vec3)
    (tris : List Tri) (h : dirs ≠ []) :
    (icosphere radius dirs tris).vertices ≠ [] := by
  simpa [icosphere, List.map_eq_nil_iff] using h

/-- Merging keeps a nonempty vertex list on the left. -/
theorem concat2_vertices_ne_nil (a b : Solid) (ha : a.vertices ≠ []) :
    (concat2 a b).vertices ≠ [] := by
  show a.vertices ++ b.vertices ≠ []
  intro h
  exact ha (List.append_eq_nil.mp h).1

/-- Stacking keeps the top's vertex list nonempty. -/
theorem stack_on_top_vertices_ne_nil (b t : Solid) (o : ℚ)
    (ht : t.vertices ≠ []) : (stack_on_top b t o).vertices ≠ [] :=
  apply_translation_vertices_ne_nil t _ ht

/-- C10 counterexample: for the stacked archetype with in-range draws
(trunk height 2, first cone height 3 and radius 3, second cone height 2),
the second crown's lowest point after stacking sits at
trunk + cone1 heights minus two overlaps = 4, not at
trunk height minus 0.5 = 1.5. -/
theorem stacked_second_crown_not_at_trunk_top :
    minZ (stack_on_top
        (stack_on_top (create_trunk 2 (7 / 10) (geoW.circle 5))
          (stacked_c1 3 3 (0, 0, 0) geoW) OVERLAP_AMOUNT)
        (stacked_c2 2 (0, 0, 0) geoW) OVERLAP_AMOUNT) = 4 ∧
    ((4 : ℚ) ≠ 2 - 1 / 2) := by
  have hc1 : (stacked_c1 3 3 (0, 0, 0) geoW).vertices ≠ [] := by
    rw [stacked_c1, set_face_colors_vertices]
    exact cone_vertices_ne_nil _ _ _ _
  have hc2 : (stacked_c2 2 (0, 0, 0) geoW).vertices ≠ [] := by
    rw [stacked_c2, set_face_colors_vertices]
    exact cone_vertices_ne_nil _ _ _ _
  obtain ⟨htmin, htmax⟩ :=
    create_trunk_bounds 2 (7 / 10) (geoW.circle 5) (by norm_num)
  obtain ⟨hc1min, hc1max⟩ :=
    cone_bounds 3 3 7 (geoW.circle 7) (by norm_num) (by norm_num)
  constructor
  · rw [minZ_stack_on_top _ _ _ hc2, maxZ_stack_on_top _ _ _ hc1, htmax]
    show 2 - OVERLAP_AMOUNT + (maxZ (cone 3 3 7 (geoW.circle 7)) -
      minZ (cone 3 3 7 (geoW.circle 7))) - OVERLAP_AMOUNT = 4
    rw [hc1min, hc1max, OVERLAP_AMOUNT]
    norm_num
  · norm_num

/-- The roundy tree's base rests at Z = 0 and its crown lands at trunk
height − 0.5 (helper shared by the forest-level claims). -/
theorem roundy_tree_min_z (geo : Geo) (hsph : geo.sphereDirs ≠ [])
    (x y h r : ℚ) (off : ℤ × ℤ × ℤ) (hh : 2 ≤ h) :
    minZ (create_roundy_tree ⟨x, y, 0⟩ h r off geo) = 0 ∧
    minZ (stack_on_top (create_trunk h (7 / 10) (geo.circle 5))
      (roundy_crown r off geo) OVERLAP_AMOUNT) = h - 1 / 2 ∧
    0 < h - 1 / 2 := by
  have h0 : (0 : ℚ) ≤ h := by linarith
  have htrunk := create_trunk_vertices_ne_nil h (7 / 10) (geo.circle 5)
  obtain ⟨htmin, htmax⟩ := create_trunk_bounds h (7 / 10) (geo.circle 5) h0
  have hcrown : (roundy_crown r off geo).vertices ≠ [] := by
    rw [roundy_crown, set_face_colors_vertices]
    exact icosphere_vertices_ne_nil _ _ _ hsph
  have hcmin : minZ (stack_on_top (create_trunk h (7 / 10) (geo.circle 5))
      (roundy_crown r off geo) OVERLAP_AMOUNT) = h - 1 / 2 := by
    rw [minZ_stack_on_top _ _ _ hcrown, htmax]
    rfl
  refine ⟨?_, hcmin, by linarith⟩
  rw [create_roundy_tree]
  show minZ (apply_translation (concatenate _) _) = 0
  rw [concatenate_pair,
    minZ_apply_translation _ _ (concat2_vertices_ne_nil _ _ htrunk),
    minZ_concat2 _ _ htrunk (stack_on_top_vertices_ne_nil _ _ _ hcrown),
    htmin, hcmin]
  show min 0 (h - 1 / 2) + 0 = 0
  rw [min_eq_left (by linarith)]
  ring

/-- C10 (amended): for every tree produced by any of the three archetype
constructors at ground position `(x, y, 0)`, the minimum Z over the merged
tree's vertices is exactly 0 (the trunk base rests on the Z = 0 plane):
each crown's lowest point after stacking is 0.5 below the top of the solid
it was stacked onto — trunk height − 0.5 for the crown stacked on the trunk,
and trunk height + first-cone height − 1 for the stacked archetype's second
cone — all strictly positive for the sampled trunk heights (≥ 2), and the
final translation has zero Z component. -/
theorem tree_min_z_zero (geo : Geo) (hsph : geo.sphereDirs ≠ []) :
    (∀ x y h r off, 2 ≤ h →
      minZ (create_roundy_tree ⟨x, y, 0⟩ h r off geo) = 0 ∧
      minZ (stack_on_top (create_trunk h (7 / 10) (geo.circle 5))
        (roundy_crown r off geo) OVERLAP_AMOUNT) = h - 1 / 2 ∧
      0 < h - 1 / 2) ∧
    (∀ x y h hc rc off, 2 ≤ h →
      minZ (create_pointy_tree ⟨x, y, 0⟩ h hc rc off geo) = 0 ∧
      minZ (stack_on_top (create_trunk h (3 / 5) (geo.circle 5))
        (pointy_crown hc rc off geo) OVERLAP_AMOUNT) = h - 1 / 2) ∧
    (∀ x y h h1 r1 h2 o1 o2, 2 ≤ h → 0 ≤ h1 →
      minZ (create_stacked_tree ⟨x, y, 0⟩ h h1 r1 h2 o1 o2 geo) = 0 ∧
      minZ (stack_on_top (create_trunk h (7 / 10) (geo.circle 5))
        (stacked_c1 h1 r1 o1 geo) OVERLAP_AMOUNT) = h - 1 / 2 ∧
      minZ (stack_on_top
        (stack_on_top (create_trunk h (7 / 10) (geo.circle 5))
          (stacked_c1 h1 r1 o1 geo) OVERLAP_AMOUNT)
        (stacked_c2 h2 o2 geo) OVERLAP_AMOUNT) = h + h1 - 1 ∧
      0 < h + h1 - 1) := by
  refine ⟨fun x y h r off hh => roundy_tree_min_z geo hsph x y h r off hh,
    ?_, ?_⟩
  · intro x y h hc rc off hh
    have h0 : (0 : ℚ) ≤ h := by linarith
    have htrunk := create_trunk_vertices_ne_nil h (3 / 5) (geo.circle 5)
    obtain ⟨htmin, htmax⟩ := create_trunk_bounds h (3 / 5) (geo.circle 5) h0
    have hcrown : (pointy_crown hc rc off geo).vertices ≠ [] := by
      rw [pointy_crown, set_face_colors_vertices]
      exact cone_vertices_ne_nil _ _ _ _
    have hcmin : minZ (stack_on_top (create_trunk h (3 / 5) (geo.circle 5))
        (pointy_crown hc rc off geo) OVERLAP_AMOUNT) = h - 1 / 2 := by
      rw [minZ_stack_on_top _ _ _ hcrown, htmax]
      rfl
    refine ⟨?_, hcmin⟩
    rw [create_pointy_tree]
    show minZ (apply_translation (concatenate _) _) = 0
    rw [concatenate_pair,
      minZ_apply_translation _ _ (concat2_vertices_ne_nil _ _ htrunk),
      minZ_concat2 _ _ htrunk (stack_on_top_vertices_ne_nil _ _ _ hcrown),
      htmin, hcmin]
    show min 0 (h - 1 / 2) + 0 = 0
    rw [min_eq_left (by linarith)]
    ring
  · intro x y h h1 r1 h2 o1 o2 hh hh1
    have h0 : (0 : ℚ) ≤ h := by linarith
    have htrunk := create_trunk_vertices_ne_nil h (7 / 10) (geo.circle 5)
    obtain ⟨htmin, htmax⟩ := create_trunk_bounds h (7 / 10) (geo.circle 5) h0
    have hc1 : (stacked_c1 h1 r1 o1 geo).vertices ≠ [] := by
      rw [stacked_c1, set_face_colors_vertices]
      exact cone_vertices_ne_nil _ _ _ _
    have hc2 : (stacked_c2 h2 o2 geo).vertices ≠ [] := by
      rw [stacked_c2, set_face_colors_vertices]
      exact cone_vertices_ne_nil _ _ _ _
    obtain ⟨hc1min, hc1max⟩ :=
      cone_bounds r1 h1 7 (geo.circle 7) (by norm_num) hh1
    have hc1smin : minZ (stack_on_top (create_trunk h (7 / 10) (geo.circle 5))
        (stacked_c1 h1 r1 o1 geo) OVERLAP_AMOUNT) = h - 1 / 2 := by
      rw [minZ_stack_on_top _ _ _ hc1, htmax]
      rfl
    have hc1smax : maxZ (stack_on_top (create_trunk h (7 / 10) (geo.circle 5))
        (stacked_c1 h1 r1 o1 geo) OVERLAP_AMOUNT) = h - 1 / 2 + h1 := by
      rw [maxZ_stack_on_top _ _ _ hc1, htmax]
      show h - OVERLAP_AMOUNT + (maxZ (cone r1 h1 7 (geo.circle 7)) -
        minZ (cone r1 h1 7 (geo.circle 7))) = _
      rw [hc1min, hc1max, OVERLAP_AMOUNT]
      ring
    have hc2smin : minZ (stack_on_top
        (stack_on_top (create_trunk h (7 / 10) (geo.circle 5))
          (stacked_c1 h1 r1 o1 geo) OVERLAP_AMOUNT)
        (stacked_c2 h2 o2 geo) OVERLAP_AMOUNT) = h + h1 - 1 := by
      rw [minZ_stack_on_top _ _ _ hc2, hc1smax]
      show h - 1 / 2 + h1 - OVERLAP_AMOUNT = _
      rw [OVERLAP_AMOUNT]
      ring
    refine ⟨?_, hc1smin, hc2smin, by linarith⟩
    rw [create_stacked_tree]
    show minZ (apply_translation (concatenate _) _) = 0
    rw [concatenate_triple,
      minZ_apply_translation _ _ (concat2_vertices_ne_nil _ _
        (concat2_vertices_ne_nil _ _ htrunk)),
      minZ_concat2 _ _ (concat2_vertices_ne_nil _ _ htrunk)
        (stack_on_top_vertices_ne_nil _ _ _ hc2),
      minZ_concat2 _ _ htrunk (stack_on_top_vertices_ne_nil _ _ _ hc1),
      htmin, hc1smin, hc2smin]
    show min (min 0 (h - 1 / 2)) (h + h1 - 1) + 0 = 0
    rw [min_eq_left (show (0 : ℚ) ≤ h - 1 / 2 by linarith),
      min_eq_left (show (0 : ℚ) ≤ h + h1 - 1 by linarith)]
    ring

/-- Witness for C10 (amended) at a concrete roundy tree. -/
theorem tree_min_z_zero_check :
    geoW.sphereDirs ≠ [] ∧ (2 : ℚ) ≤ 3 ∧
    minZ (create_roundy_tree ⟨5, 6, 0⟩ 3 (7 / 2) (0, 0, 0) geoW) = 0 :=
  ⟨by decide, by norm_num,
    ((tree_min_z_zero geoW (by decide)).1 5 6 3 (7 / 2) (0, 0, 0)
      (by norm_num)).1⟩

end TreeBaseClaims

section ForestSceneClaims

/-- The merged mesh's vertex list is the concatenation of the parts'
vertex lists (fold form, helper). -/
theorem foldl_concat2_vertices (l : List Solid) (acc : Solid) :
    (l.foldl concat2 acc).vertices =
      acc.vertices ++ (l.map Solid.vertices).flatten := by
  induction l generalizing acc with
  | nil => simp
  | cons x xs ih =>
    show (xs.foldl concat2 (concat2 acc x)).vertices = _
    rw [ih (concat2 acc x)]
    show (acc.vertices ++ x.vertices) ++ _ = _
    simp [List.append_assoc]

/-- The merged mesh's color list is the concatenation of the parts'
color lists (fold form, helper). -/
theorem foldl_concat2_colors (l : List Solid) (acc : Solid) :
    (l.foldl concat2 acc).colors = acc.colors ++ (l.map Solid.colors).flatten := by
  induction l generalizing acc with
  | nil => simp
  | cons x xs ih =>
    show (xs.foldl concat2 (concat2 acc x)).colors = _
    rw [ih (concat2 acc x)]
    show (acc.colors ++ x.colors) ++ _ = _
    simp [List.append_assoc]

/-- `concatenate` joins all vertex lists in order. -/
theorem concatenate_vertices (l : List Solid) :
    (concatenate l).vertices = (l.map Solid.vertices).flatten := by
  rw [concatenate, foldl_concat2_vertices]
  rfl

/-- `concatenate` joins all color lists in order. -/
theorem concatenate_colors (l : List Solid) :
    (concatenate l).colors = (l.map Solid.colors).flatten := by
  rw [concatenate, foldl_concat2_colors]
  rfl

/-- C2 counterexample: the merged Trees buffer does not contain the
ground-plane quad.  At tree count 1, plot size 120, the quad corner
`(-120/1.8, -120/1.8, -0.1)` is a vertex of the separate Ground trace but
not of the merged tree mesh (every tree vertex has Z ≥ 0 > -0.1). -/
theorem forest_buffer_lacks_ground_quad :
    (⟨-(120 / (9 / 5)), -(120 / (9 / 5)), -(1 / 10)⟩ : Vec3) ∈
      (groundQuad 120).vertices ∧
    (⟨-(120 / (9 / 5)), -(120 / (9 / 5)), -(1 / 10)⟩ : Vec3) ∉
      (figData 1 120 posW randW geoW).1.vertices := by
  constructor
  · exact List.mem_cons_self _ _
  · intro hmem
    have hz : (-(1 / 10) : ℚ) ∈ zList (figData 1 120 posW randW geoW).1 :=
      List.mem_map_of_mem Vec3.z hmem
    have hle : minL (zList (figData 1 120 posW randW geoW).1) ≤ -(1 / 10) :=
      minL_le_mem _ _ hz
    have hforest : (figData 1 120 posW randW geoW).1 =
        create_roundy_tree ⟨3, 4, 0⟩ 3 3 (0, 0, 0) geoW := by
      show forest_mesh 1 posW randW geoW = _
      rw [forest_mesh, treeMeshes]
      show concatenate [buildTree ⟨3, 4, 0⟩ (randW 0) geoW] = _
      show (concat2 emptySolid (buildTree ⟨3, 4, 0⟩ (randW 0) geoW)) = _
      rw [concat2_empty_left]
      have hsel : selectArchetype (randW 0).rnd = Archetype.roundy := by
        show selectArchetype 0 = Archetype.roundy
        rw [selectArchetype, if_pos (show (0 : ℚ) < 2 / 5 by norm_num)]
      simp only [buildTree, hsel]
      rfl
    have hmin : minZ (figData 1 120 posW randW geoW).1 = 0 := by
      rw [hforest]
      exact (roundy_tree_min_z geoW (by decide) 3 4 3 3 (0, 0, 0)
        (by norm_num)).1
    rw [show minL (zList (figData 1 120 posW randW geoW).1) =
      minZ (figData 1 120 posW randW geoW).1 from rfl, hmin] at hle
    linarith

/-- C2 (amended): the scene handed to the rendering layer consists of two
separate buffers: the Trees buffer — one single merged vertex/index/color
triple containing all N trees' geometry by the index-offsetting
concatenation rule (vertex and color lists are the joins of the trees'
lists, one entry of `treeMeshes` per tree index) — and a separate Ground
buffer: a quad with 4 corner vertices at ±plotSize/1.8 in X and Y at
Z = -0.1, triangulated as two triangles sharing vertex 0 and colored
(160, 200, 120). -/
theorem forest_scene_structure (n : ℕ) (p : ℚ) (posF : ℕ → ℚ × ℚ)
    (randF : ℕ → TreeRand) (geo : Geo) :
    (figData n p posF randF geo).1 = concatenate (treeMeshes n posF randF geo) ∧
    (concatenate (treeMeshes n posF randF geo)).vertices =
      ((treeMeshes n posF randF geo).map Solid.vertices).flatten ∧
    (concatenate (treeMeshes n posF randF geo)).colors =
      ((treeMeshes n posF randF geo).map Solid.colors).flatten ∧
    (treeMeshes n posF randF geo).length = n ∧
    (figData n p posF randF geo).2 = groundQuad p ∧
    (groundQuad p).vertices =
      [⟨-(p / (9 / 5)), -(p / (9 / 5)), -(1 / 10)⟩,
       ⟨p / (9 / 5), -(p / (9 / 5)), -(1 / 10)⟩,
       ⟨p / (9 / 5), p / (9 / 5), -(1 / 10)⟩,
       ⟨-(p / (9 / 5)), p / (9 / 5), -(1 / 10)⟩] ∧
    (groundQuad p).faces = [(0, 1, 2), (0, 2, 3)] ∧
    (groundQuad p).colors = [(160, 200, 120, 255), (160, 200, 120, 255)] := by
  refine ⟨rfl, concatenate_vertices _, concatenate_colors _, ?_, rfl, rfl,
    rfl, rfl⟩
  simp [treeMeshes]

end ForestSceneClaims

section ConfigClaims

/-- C7 counterexample: the tree count 10 is outside the recognized range
20–300, yet the generation request succeeds and returns a complete 10-tree
forest — no InvalidConfiguration failure exists anywhere in the pipeline. -/
theorem no_invalid_configuration_failure :
    (10 < 20) ∧
    buildForest 10 120 posW randW geoW =
      Except.ok (figData 10 120 posW randW geoW) ∧
    (treeMeshes 10 posW randW geoW).length = 10 :=
  ⟨by norm_num, rfl, by simp [treeMeshes]⟩

/-- C7 (amended): the script performs no range validation and never raises
a failure — `buildForest` unconditionally succeeds with the assembled scene
for every tree count and plot size; out-of-range values never reach the
generation loop in the real program only because the presentation-layer
sliders confine the tree count to [20, 300] and the plot size to [50, 200]. -/
theorem generation_performs_no_validation :
    (∀ n p posF randF geo, buildForest n p posF randF geo =
      Except.ok (figData n p posF randF geo)) ∧
    (∀ v, 20 ≤ st_slider 20 300 v ∧ st_slider 20 300 v ≤ 300) ∧
    (∀ v, 50 ≤ st_slider 50 200 v ∧ st_slider 50 200 v ≤ 200) := by
  refine ⟨fun _ _ _ _ _ => rfl, fun v => ⟨?_, ?_⟩, fun v => ⟨?_, ?_⟩⟩
  · exact le_max_left _ _
  · exact max_le (by norm_num) (min_le_right v 300)
  · exact le_max_left _ _
  · exact max_le (by norm_num) (min_le_right v 200)

end ConfigClaims
